import Mathlib

/-!
Verification of the codebraid tree-synchronization and chunk-resolution
engine (`src/codebraid/converters/pandoc.py`, `src/codebraid/converters/base.py`)
against its natural-language specification.

Pandoc AST nodes are JSON dicts of the form `{"t": kind, "c": payload}`.
We embed every JSON value reachable by the code under verification as
`PVal`: a dict node (with its `t` tag, optional `c` payload, and the
`codebraid_pseudonode` marker key used by the tree walker), a JSON array,
or a scalar string.  Python's in-place mutation of node dicts is modelled
by a store mapping node ids to `PVal`s; a transform that mutates a node in
place becomes a store update at a fixed id.
-/

/-- A Pandoc JSON value as manipulated by the Python code:
`node t c pseudo` is a dict `{"t": t, "c": c}` (the `pseudo` flag models
the presence of the `codebraid_pseudonode` key added by the walker),
`arr` a JSON list, `str` a scalar string. -/

inductive PVal where
  | node (t : String) (c : Option PVal) (pseudo : Bool) : PVal
  | arr (items : List PVal) : PVal
  | str (s : String) : PVal
deriving Repr

/-- The `t` tag of a dict node, if the value is a dict node. -/
def PVal.tag : PVal → Option String
  | .node t _ _ => some t
  | _ => none

/-- Test whether a node carries a given class: code-shaped nodes store
`[id, classes, kvpairs]` as the first element of their `c` payload.
Returns `false` whenever the value does not have that attribute shape
(raw nodes store `[format, content]`, so their first payload element is a
string, not an attribute triple). -/
def PVal.hasClass (v : PVal) (cls : String) : Bool :=
  match v with
  | .node _ (some (.arr (attr :: _))) _ =>
    match attr with
    | .arr [_, .arr classes, _] =>
      classes.any (fun c => match c with | .str s => s == cls | _ => false)
    | _ => false
  | _ => false

/-! ## Freeze/thaw transform (`PandocConverter._freeze_raw_node` /
`PandocConverter._thaw_raw_node`, pandoc.py lines 854-897).

`_freeze_raw_node(node, source_name, line_number)` rewrites
`node['t']` through `{'RawBlock': 'CodeBlock', 'RawInline': 'Code'}` and
`node['c']` from `[raw_format, raw_content]` to
`[['', ['codebraid--temp'], [['format', raw_format]]], raw_content]`.
A `KeyError` (kind not in the translation dict) or unpacking failure is
modelled as `none`.  The `source_name`/`line_number` arguments are
accepted and ignored, exactly as in the non-io-map source function. -/

def freeze_raw_node (node : PVal) (_sourceName : String) (_lineNumber : Nat) : Option PVal :=
  match node with
  | .node t (some (.arr [rawFormat, rawContent])) pseudo =>
    let newT := if t = "RawBlock" then some "CodeBlock"
                else if t = "RawInline" then some "Code"
                else none
    match newT with
    | some t' =>
      some (.node t'
        (some (.arr [.arr [.str "", .arr [.str "codebraid--temp"],
                           .arr [.arr [.str "format", rawFormat]]],
                     rawContent]))
        pseudo)
    | none => none
  | _ => none

/-- `_thaw_raw_node(node)`: rewrites `node['t']` through
`{'CodeBlock': 'RawBlock', 'Code': 'RawInline'}` and `node['c']` to
`[node['c'][0][2][0][1], node['c'][1]]` (the stored raw format pulled back
out of the first key-value pair, plus the untouched content). -/
def thaw_raw_node (node : PVal) : Option PVal :=
  match node with
  | .node t (some (.arr [attr, content])) pseudo =>
    let newT := if t = "CodeBlock" then some "RawBlock"
                else if t = "Code" then some "RawInline"
                else none
    match newT with
    | some t' =>
      match attr with
      | .arr [_, _, .arr (.arr (_ :: v :: _) :: _)] =>
        some (.node t' (some (.arr [v, content])) pseudo)
      | _ => none
    | none => none
  | _ => none

/-- A store of nodes addressed by id, modelling Python object identity:
the Python code mutates a node dict in place, which we model as updating
the store at the node's fixed id. -/
def NodeStore : Type := Nat → PVal

/-- Freeze the node with id `i` in place. -/
def freeze_raw_node_at (s : NodeStore) (i : Nat) : Option NodeStore :=
  (freeze_raw_node (s i) "" 0).map (Function.update s i)

/-- Thaw the node with id `i` in place. -/
def thaw_raw_node_at (s : NodeStore) (i : Nat) : Option NodeStore :=
  (thaw_raw_node (s i)).map (Function.update s i)

/-! ## Output splicer (`PandocCodeChunk.update_parent_node`, pandoc.py
lines 511-538, and `PandocConverter._postprocess_code_chunks`, lines
1172-1176).

Each chunk records, at discovery time, its containing node list and its
index within that list (`parent_node_list`, `parent_node_list_index`).
Splicing replaces the one recorded slot with the chunk's output nodes:
`self.parent_node_list[index:index+1] = self.output_nodes`.  Python node
lists are mutable objects shared by reference; we model the collection of
node lists of a document as a map from list ids to lists, so that two
chunks recording the same Python list object record the same id. -/

/-- The node lists of a document, addressed by list id (modelling Python
list object identity). -/

def ListStore : Type := Nat → List PVal

/-- A discovered code chunk as the splicer sees it: the id of its
containing node list, its recorded index in that list, its originating
node, and the output nodes that are to replace it. -/
structure SpliceChunk where
  lid : Nat
  idx : Nat
  orig : PVal
  out : List PVal

/-- `PandocCodeChunk.update_parent_node` (non-`example` path):
`self.parent_node_list[index:index+1] = self.output_nodes`, a Python
slice assignment replacing the single recorded slot by the chunk's
output nodes. -/
def update_parent_node (s : ListStore) (c : SpliceChunk) : ListStore :=
  fun l => if l = c.lid
    then (s c.lid).take c.idx ++ c.out ++ (s c.lid).drop (c.idx + 1)
    else s l

/-- `PandocConverter._postprocess_code_chunks` splice loop:
`for code_chunk in reversed(self.code_chunks): code_chunk.update_parent_node()`. -/
def postprocess_code_chunks (s : ListStore) (chunks : List SpliceChunk) : ListStore :=
  chunks.reverse.foldl update_parent_node s

/-- The reverse pass expressed as structural recursion: processing the
chunks of `cs` in reverse order is processing the last chunk into the
state obtained from the earlier ones.  (Helper for induction.) -/
def spliceSuffix (s : ListStore) : List SpliceChunk → ListStore
  | [] => s
  | c :: cs => update_parent_node (spliceSuffix s cs) c

/-! ## Tree walker (`walk_node_list`, pandoc.py lines 543-596).

The Python walker is a recursive generator over a node list.  It yields
`(node, parent_node, node_list, index, in_note)` for every dict object
(subject to the optional type filter), recurses into list-valued `c`
payloads, handles `Note` and `DefinitionList` specially, and recurses
into bare sub-lists.  Crucially, the `Note` branch executes
`in_note = True`, an assignment to the loop-local variable that stays in
effect for all later iterations of the same `for` loop.

The embedding is fuel-indexed: `fuel` bounds the recursion depth and
every recursive call decrements it, so any fuel larger than the total
number of values in the tree computes the generator's full output.  We
only evaluate the walker at concrete inputs. -/

/-- One tuple yielded by the walker. -/

structure WalkEntry where
  node : PVal
  parent : PVal
  nlist : List PVal
  index : Nat
  inNote : Bool
deriving Repr

/-- `type_filter is None or node_type in type_filter`. -/
def passFilter (filter : Option (List String)) (t : String) : Bool :=
  match filter with
  | none => true
  | some f => f.contains t

mutual

/-- The walker loop body: `full` is the `node_list` being enumerated
(recorded in yielded tuples), `rest` the not-yet-visited tail, `i` the
current index, and `inNote` the loop-local `in_note` variable. -/
def walkAux : Nat → List PVal → List PVal → Nat → PVal →
    Option (List String) → Bool → Bool → List WalkEntry
  | 0, _, _, _, _, _, _, _ => []
  | _ + 1, _, [], _, _, _, _, _ => []
  | fuel + 1, full, obj :: rest, i, parent, fil, skip, inN =>
    match obj with
    | .node t c pseudo =>
      let ys := if passFilter fil t then [⟨.node t c pseudo, parent, full, i, inN⟩] else []
      match c with
      | some (.arr contents) =>
        if t = "Note" then
          if skip then
            ys ++ walkAux fuel full rest (i + 1) parent fil skip inN
          else
            ys ++ walkAux fuel contents contents 0 (.node t c pseudo) fil skip true
               ++ walkAux fuel full rest (i + 1) parent fil skip true
        else if t = "DefinitionList" then
          ys ++ walkDefinitionList fuel contents (.node t c pseudo) fil skip inN
             ++ walkAux fuel full rest (i + 1) parent fil skip inN
        else
          ys ++ walkAux fuel contents contents 0 (.node t c pseudo) fil skip inN
             ++ walkAux fuel full rest (i + 1) parent fil skip inN
      | _ => ys ++ walkAux fuel full rest (i + 1) parent fil skip inN
    | .arr items =>
      walkAux fuel items items 0 parent fil skip inN
        ++ walkAux fuel full rest (i + 1) parent fil skip inN
    | .str _ => walkAux fuel full rest (i + 1) parent fil skip inN

/-- The `DefinitionList` branch: each element `[term, definition]` gets a
synthetic `Plain` pseudonode wrapping the term (yielded with the
two-element Python list `elem` as its recorded containing list and index
0), then the term is walked with the pseudonode as parent and the
definition with the `DefinitionList` node as parent. -/
def walkDefinitionList : Nat → List PVal → PVal →
    Option (List String) → Bool → Bool → List WalkEntry
  | 0, _, _, _, _, _ => []
  | _ + 1, [], _, _, _, _ => []
  | fuel + 1, elem :: restElems, obj, fil, skip, inN =>
    match elem with
    | .arr [termV, defV] =>
      let pseudonode : PVal := .node "Plain" (some termV) true
      let ys := if passFilter fil "Plain" then [⟨pseudonode, obj, [termV, defV], 0, inN⟩] else []
      let termWalk := match termV with
        | .arr termItems => walkAux fuel termItems termItems 0 pseudonode fil skip inN
        | _ => []
      let defWalk := match defV with
        | .arr defItems => walkAux fuel defItems defItems 0 obj fil skip inN
        | _ => []
      ys ++ termWalk ++ defWalk ++ walkDefinitionList fuel restElems obj fil skip inN
    | _ => walkDefinitionList fuel restElems obj fil skip inN

end

/-- `walk_node_list(node_list, parent_node, type_filter, skip_note_contents)`. -/
def walk_node_list (fuel : Nat) (nodeList : List PVal) (parent : PVal)
    (filter : Option (List String)) (skipNoteContents : Bool) : List WalkEntry :=
  walkAux fuel nodeList nodeList 0 parent filter skipNoteContents false

/-- C5 failing input: a node list holding a `Note` (containing one empty
`Para`) followed by a sibling `Str` node that is not inside any note. -/
def noteSiblingList : List PVal :=
  [.node "Note" (some (.arr [.node "Para" (some (.arr [])) false])) false,
   .node "Str" (some (.str "x")) false]

/-! ## Python string primitives.

The Python code uses `str.split`, `str.replace`, `str.splitlines` and
`str.join` on LF-separated text.  These are embedded character-wise (a
Python `str` is its character sequence) so that every definition
evaluates by kernel reduction. -/

/-- `s.split(sep)` for a one-character separator: always returns at
least one (possibly empty) field. -/

def splitOnChar (sep : Char) : List Char → List (List Char)
  | [] => [[]]
  | c :: rest =>
    if c = sep then [] :: splitOnChar sep rest
    else
      match splitOnChar sep rest with
      | [] => [[c]]
      | g :: gs => (c :: g) :: gs

/-- `s.split(sep, 1)` for a one-character separator: the text before the
first separator, and (if the separator occurs) the text after it. -/
def splitOnceChar (sep : Char) : List Char → List Char × Option (List Char)
  | [] => ([], none)
  | c :: rest =>
    if c = sep then ([], some rest)
    else
      let (pre, post) := splitOnceChar sep rest
      (c :: pre, post)

/-- `sep.join(parts)` for a one-character separator. -/
def joinWithChar (sep : Char) : List (List Char) → List Char
  | [] => []
  | [p] => p
  | p :: ps => p ++ sep :: joinWithChar sep ps

def pySplit (sep : Char) (s : String) : List String :=
  (splitOnChar sep s.data).map String.mk

/-- `value.replace(' ', '')`. -/
def pyRemoveSpaces (s : String) : String :=
  String.mk (s.data.filter (fun c => c != ' '))

def pyJoin (sep : Char) (parts : List String) : String :=
  String.mk (joinWithChar sep (parts.map String.data))

/-! ## Chunk options resolver (`base.py` lines 29-207).

Option values are Python scalars, strings, ordered dicts and lists; the
option mapping itself is a Python dict, which preserves insertion order.
We embed option mappings as association lists with Python-dict update
semantics (assignment to an existing key overwrites in place, a new key
is appended). -/

/-- A Python option value as stored by the option processors. -/

inductive OptVal where
  | bool (b : Bool)
  | str (s : String)
  | int (i : Int)
  | strList (l : List String)
  | showSpec (m : List (String × String))
  | subMap (m : List (String × OptVal))
  | pynone
deriving Repr

/-- An insertion-ordered Python dict of options. -/
abbrev OptDict : Type := List (String × OptVal)

def dictContains (m : OptDict) (k : String) : Bool :=
  m.any (fun p => p.1 == k)

def dictGet (m : OptDict) (k : String) : Option OptVal :=
  match m.find? (fun p => p.1 == k) with
  | some p => some p.2
  | none => none

/-- Python dict assignment `m[k] = v`: overwrite in place if the key
exists, append otherwise. -/
def dictSet (m : OptDict) (k : String) (v : OptVal) : OptDict :=
  if dictContains m k then m.map (fun p => if p.1 == k then (k, v) else p)
  else m ++ [(k, v)]

/-- Python `m.pop(k, None)`: the removed value (or `None`) and the
remaining dict. -/
def dictPop (m : OptDict) (k : String) : Option OptVal × OptDict :=
  (dictGet m k, m.filter (fun p => p.1 != k))

/-- `str(value)` as used in warning/error message interpolation, for the
values that actually reach messages in the verified paths. -/
def pyStr : OptVal → String
  | .bool true => "True"
  | .bool false => "False"
  | .str s => s
  | .int i => toString i
  | .pynone => "None"
  | .strList _ => "<list>"
  | .showSpec _ => "<dict>"
  | .subMap _ => "<dict>"

def pyStrOpt : Option String → String
  | some s => s
  | none => "None"

/-- The chunk-level mutable state the option processors act on: the
option mapping under construction plus the chunk's accumulated
`source_errors` and `source_warnings`. -/
structure OptionsState where
  options : OptDict
  source_errors : List String
  source_warnings : List String
deriving Repr

def OptionsState.warn (st : OptionsState) (msg : String) : OptionsState :=
  { st with source_warnings := st.source_warnings ++ [msg] }

def OptionsState.err (st : OptionsState) (msg : String) : OptionsState :=
  { st with source_errors := st.source_errors ++ [msg] }

def OptionsState.set (st : OptionsState) (k : String) (v : OptVal) : OptionsState :=
  { st with options := dictSet st.options k v }

def invalidValueMsg (key : String) (value : OptVal) : String :=
  "Invalid \"" ++ key ++ "\" value \"" ++ pyStr value ++ "\" in code chunk"

/-- `_cb_option_unknown`. -/
def _cb_option_unknown (key : String) (_value : OptVal) (st : OptionsState) : OptionsState :=
  st.err ("Unknown option \"" ++ key ++ "\" for code chunk")

/-- `_cb_option_bool`. -/
def _cb_option_bool (key : String) (value : OptVal) (st : OptionsState) : OptionsState :=
  match value with
  | .bool b => st.set key (.bool b)
  | _ => st.warn (invalidValueMsg key value)

/-- `_cb_option_str`. -/
def _cb_option_str (key : String) (value : OptVal) (st : OptionsState) : OptionsState :=
  match value with
  | .str s => st.set key (.str s)
  | _ => st.warn (invalidValueMsg key value)

/-- `_cb_option_first_number`: a positive int or the string `next`. -/
def _cb_option_first_number (key : String) (value : OptVal) (st : OptionsState) : OptionsState :=
  match value with
  | .int i => if 0 < i then st.set key (.int i) else st.warn (invalidValueMsg key value)
  | .str s => if s = "next" then st.set key (.str s) else st.warn (invalidValueMsg key value)
  | _ => st.warn (invalidValueMsg key value)

/-- `_cb_option_label`: a duplicate is only a warning; otherwise the
string value is stored under `label`. -/
def _cb_option_label (key : String) (value : OptVal) (st : OptionsState) : OptionsState :=
  if dictContains st.options "label" then
    st.warn ("Duplicate option \"" ++ key ++ "\" (label/name) for code chunk")
  else
    match value with
    | .str s => st.set "label" (.str s)
    | _ => st.warn (invalidValueMsg key value)

def _cb_default_show_notebook : List (String × String) :=
  [("code", "verbatim"), ("stdout", "verbatim"), ("stderr", "verbatim")]

def _cb_default_show_inline_notebook : List (String × String) :=
  [("expression", "raw"), ("stderr", "verbatim")]

/-- One `output[:format]` token of a `show` value, split with
`split(':', 1)`. -/
def splitShowToken (token : String) : String × Option String :=
  let (o, f) := splitOnceChar ':' token.data
  (String.mk o, f.map String.mk)

/-- The per-token body of `_cb_option_show`'s loop over
`value.replace(' ', '').split('+')`.  `acc` is `value_processed` plus the
warnings accumulated so far; `value` is the full original option value
(used in messages). -/
def processShowToken (inline : Bool) (value : String)
    (acc : List (String × String) × List String) (token : String) :
    List (String × String) × List String :=
  let (processed, warnings) := acc
  let (output, format) := splitShowToken token
  if processed.any (fun p => p.1 == output) then
    (processed, warnings ++
      ["Option \"show\" value \"" ++ value ++ "\" contains duplicate \"" ++ output ++
       "\" in code chunk"])
  else if output = "code" then
    match format with
    | none => (processed ++ [(output, "verbatim")], warnings)
    | some f =>
      if f = "verbatim" then (processed ++ [(output, f)], warnings)
      else (processed, warnings ++ [invalidValueMsg "show" (.str value)])
  else if output = "stdout" ∨ output = "stderr" then
    match format with
    | none => (processed ++ [(output, "verbatim")], warnings)
    | some f =>
      if f = "verbatim" ∨ f = "verbatim_or_empty" ∨ f = "raw" then
        (processed ++ [(output, f)], warnings)
      else (processed, warnings ++ [invalidValueMsg "show" (.str value)])
  else if output = "expression" then
    if ¬ inline then
      (processed, warnings ++
        ["Invalid \"show\" value \"" ++ value ++ "\" (not inline) in code chunk"])
    else
      match format with
      | none => (processed ++ [(output, "raw")], warnings)
      | some f =>
        if f = "verbatim" ∨ f = "verbatim_or_empty" ∨ f = "raw" then
          (processed ++ [(output, f)], warnings)
        else (processed, warnings ++ [invalidValueMsg "show" (.str value)])
  else
    (processed, warnings ++ [invalidValueMsg "show" (.str value)])

/-- `_cb_option_show`. -/
def _cb_option_show (inline : Bool) (key : String) (value : OptVal)
    (st : OptionsState) : OptionsState :=
  match value with
  | .str v =>
    if v = "none" then st.set key .pynone
    else if v = "notebook" then
      st.set key (.showSpec (if inline then _cb_default_show_inline_notebook
                             else _cb_default_show_notebook))
    else
      let tokens := pySplit '+' (pyRemoveSpaces v)
      let pw := tokens.foldl (processShowToken inline v) ([], [])
      { st with options := dictSet st.options key (.showSpec pw.1),
                source_warnings := st.source_warnings ++ pw.2 }
  | _ => st.warn (invalidValueMsg key value)

/-- `_cb_option_hide`.  (For `hide='all'` the Python source then reads
the unbound local `hide_values`, raising `NameError`; that branch is
modelled as stopping after `options['show'] = None`.) -/
def _cb_option_hide (key : String) (value : OptVal) (st : OptionsState) : OptionsState :=
  match value with
  | .str v =>
    if v = "all" then st.set "show" .pynone
    else
      let hideValues := pySplit '+' (pyRemoveSpaces v)
      if hideValues.all (fun x => x = "code" ∨ x = "stdout" ∨ x = "stderr" ∨ x = "expression")
      then
        let st := match dictGet st.options "show" with
          | some (.showSpec m) =>
            st.set "show" (.showSpec (m.filter (fun p => ¬ hideValues.contains p.1)))
          | _ => st
        st.set key (.strList hideValues)
      else st.warn (invalidValueMsg key value)
  | _ => st.warn (invalidValueMsg key value)

/-- `_cb_option_processors`: the registry from option key to handler,
with `_cb_option_unknown` as the default. -/
def _cb_option_processors (inline : Bool) (key : String) (v : OptVal)
    (st : OptionsState) : OptionsState :=
  if key = "hide" then _cb_option_hide key v st
  else if key = "first_number" then _cb_option_first_number key v st
  else if key = "label" then _cb_option_label key v st
  else if key = "lang" then _cb_option_str key v st
  else if key = "line_numbers" then _cb_option_bool key v st
  else if key = "session" then _cb_option_str key v st
  else if key = "show" then _cb_option_show inline key v st
  else _cb_option_unknown key v st

/-- `_cb_default_options` (block defaults). -/
def _cb_default_options : OptDict :=
  [("first_number", .str "next"), ("lang", .pynone), ("line_numbers", .bool true),
   ("session", .pynone), ("show", .showSpec _cb_default_show_notebook)]

/-- `_cb_default_inline_options`. -/
def _cb_default_inline_options : OptDict :=
  [("lang", .pynone), ("session", .pynone),
   ("show", .showSpec _cb_default_show_inline_notebook)]

/-- `str.splitlines()` for LF-separated text (all strings reaching the
chunk constructor come from the Pandoc JSON AST, which uses LF). -/
def splitlines_lf (s : String) : List String :=
  match splitOnChar '\n' s.data with
  | [] => []
  | [[]] => []
  | parts => (if parts.getLast? = some [] then parts.dropLast else parts).map String.mk

/-- `code_lines[-1] += '\n'` (the Python source raises `IndexError` when
the list is empty; no verified path constructs a chunk from empty block
code). -/
def appendNewlineToLast : List String → List String
  | [] => []
  | [x] => [x ++ "\n"]
  | x :: xs => x :: appendNewlineToLast xs

/-- The chunk fields produced by `CodeChunk.__init__` (base.py lines
152-197). -/
structure CodeChunkData where
  command : Option String
  code : String
  inline : Bool
  options : OptDict
  source_name : Option String
  source_start_line_number : Option Nat
  source_errors : List String
  source_warnings : List String
deriving Repr

/-- `CodeChunk.__init__`: validates the command, splits the code into
lines (flagging multi-line inline code), copies the mode's full default
option table and then runs every user-supplied option through its
registered processor, in dict insertion order.  `preErrors` and
`preWarnings` are the diagnostics already accumulated on the chunk
before `__init__` runs (appended by the format-specific preprocessing
via `__pre_init__`). -/
def code_chunk_init (command : Option String) (code : String) (options : OptDict)
    (source_name : Option String) (source_start_line_number : Option Nat)
    (inline : Bool) (preErrors preWarnings : List String) : CodeChunkData :=
  let errors0 := preErrors ++
    (if command = some "code" ∨ command = some "run" then []
     else ["Unknown Codebraid command \"" ++ pyStrOpt command ++ "\""])
  let codeLines := splitlines_lf code
  let errors1 := errors0 ++
    (if 1 < codeLines.length ∧ inline then ["Inline code cannot be longer that 1 line"] else [])
  let codeLines := if inline then codeLines else appendNewlineToLast codeLines
  let finalCode := pyJoin '\n' codeLines
  let defaults := if inline then _cb_default_inline_options else _cb_default_options
  let st0 : OptionsState := ⟨defaults, errors1, preWarnings⟩
  let st := options.foldl (fun st kv => _cb_option_processors inline kv.1 kv.2 st) st0
  { command := command, code := finalCode, inline := inline,
    options := st.options, source_name := source_name,
    source_start_line_number := source_start_line_number,
    source_errors := st.source_errors, source_warnings := st.source_warnings }

/-! ## Pandoc class and key-value attribute processors
(`_get_class_processors`, `_get_keyval_processors`, pandoc.py lines
80-238).  The same `OptionsState` carries the preprocessed option dict
plus the chunk's accumulated errors and warnings. -/

def pyStartsWith (pre s : String) : Bool :=
  pre.data.isPrefixOf s.data

def class_lang_or_unknown (st : OptionsState) (classIndex : Nat) (className : String) :
    OptionsState :=
  if dictContains st.options "lang" then
    if pyStartsWith "cb." className then
      st.err ("Unknown or unsupported Codebraid command \"" ++ className ++ "\"")
    else st.err "Unknown non-Codebraid class"
  else if 0 < classIndex then
    if pyStartsWith "cb." className then
      st.err ("Unknown or unsupported Codebraid command \"" ++ className ++ "\"")
    else st.err ("The language/format \"" ++ className ++ "\" must be the first class for code chunk")
  else st.set "lang" (.str className)

/-- `class_name.split('.', 1)[1]`. -/
def afterFirstDot (className : String) : String :=
  String.mk ((splitOnceChar '.' className.data).2.getD [])

def class_codebraid_command (st : OptionsState) (className : String) : OptionsState :=
  if dictContains st.options "codebraid_command" then
    st.err "Only one Codebraid command can be applied per code chunk"
  else st.set "codebraid_command" (.str (afterFirstDot className))

def class_line_anchors (st : OptionsState) : OptionsState :=
  if dictContains st.options "line_anchors" then
    st.warn "Duplicate line anchor class for code chunk"
  else st.set "line_anchors" (.bool true)

def class_line_numbers (st : OptionsState) : OptionsState :=
  if dictContains st.options "line_numbers" then
    st.warn "Duplicate line numbering class for code chunk"
  else st.set "line_numbers" (.bool true)

def lineAnchorsKeys : List String := ["lineAnchors", "line-anchors", "line_anchors"]

def lineNumbersKeys : List String := ["line_numbers", "numberLines", "number-lines", "number_lines"]

/-- Modelled from the spec: `CodeChunk.commands` is referenced by
pandoc.py (`cb.{}`.format over `CodeChunk.commands`,
`_find_cb_command`) but not defined in the sources here.  The spec fixes
the commands as "a fixed small set" exemplified by `code` and `run`, and
the base-class validity check (`command not in ('code', 'run')`,
base.py line 161) names exactly that set. -/
def codeChunkCommands : List String := ["code", "run"]

/-- `_class_processors` dispatch: `cb.<command>` classes, the line-anchor
and line-number class spellings, and the language/unknown default. -/
def pandoc_class_processor (st : OptionsState) (classIndex : Nat) (className : String) :
    OptionsState :=
  if codeChunkCommands.any (fun c => ("cb." ++ c) == className) then
    class_codebraid_command st className
  else if lineAnchorsKeys.contains className then class_line_anchors st
  else if lineNumbersKeys.contains className then class_line_numbers st
  else class_lang_or_unknown st classIndex className

/-- `keyval_generic`: a repeated key or a bare namespace keyword is a
source **error**; otherwise the raw string value is stored. -/
def keyval_generic (st : OptionsState) (key value : String) : OptionsState :=
  if dictContains st.options key then
    st.err ("Duplicate \"" ++ key ++ "\" attribute for code chunk")
  else if key = "include" then
    st.err ("Invalid key \"" ++ key ++ "\" for code chunk")
  else st.set key (.str value)

def keyval_bool (st : OptionsState) (key value : String) : OptionsState :=
  if dictContains st.options key then
    st.err ("Duplicate \"" ++ key ++ "\" attribute for code chunk")
  else if value ≠ "true" ∧ value ≠ "false" then
    st.err ("Attribute \"" ++ key ++ "\" must be true or false for code chunk")
  else st.set key (.bool (value = "true"))

/-- `int(value)` for the decimal strings Pandoc attributes can carry. -/
def pyParseInt (s : String) : Option Int :=
  let chars := s.data
  let (sign, digits) :=
    match chars with
    | '-' :: rest => (true, rest)
    | '+' :: rest => (false, rest)
    | rest => (false, rest)
  if digits ≠ [] ∧ digits.all (fun c => c.isDigit) then
    let n : Nat := digits.foldl (fun acc c => acc * 10 + (c.toNat - 48)) 0
    some (if sign then -(n : Int) else (n : Int))
  else none

def keyval_int (st : OptionsState) (key value : String) : OptionsState :=
  if dictContains st.options key then
    st.err ("Duplicate \"" ++ key ++ "\" attribute for code chunk")
  else
    match pyParseInt value with
    | some i => st.set key (.int i)
    | none => st.err ("Attribute \"" ++ key ++ "\" must be integer for code chunk")

def keyval_first_number (st : OptionsState) (_key value : String) : OptionsState :=
  if dictContains st.options "first_number" then
    st.warn "Duplicate first line number attribute for code chunk"
  else
    match pyParseInt value with
    | some i => st.set "first_number" (.int i)
    | none => st.set "first_number" (.str value)

def keyval_line_anchors (st : OptionsState) (key value : String) : OptionsState :=
  if dictContains st.options "line_anchors" then
    st.warn "Duplicate line anchor attribute for code chunk"
  else if value ≠ "true" ∧ value ≠ "false" then
    st.warn ("Attribute \"" ++ key ++ "\" must be true or false for code chunk")
  else st.set "line_anchors" (.bool (value = "true"))

def keyval_line_numbers (st : OptionsState) (key value : String) : OptionsState :=
  if dictContains st.options "line_numbers" then
    st.warn "Duplicate line numbering attribute for code chunk"
  else if value ≠ "true" ∧ value ≠ "false" then
    st.warn ("Attribute \"" ++ key ++ "\" must be true or false for code chunk")
  else st.set "line_numbers" (.bool (value = "true"))

/-- `keyval_namespace`: `ns.sub` or `ns_sub` keys route the value into a
nested sub-dict stored under the namespace name. -/
def keyval_namespace (st : OptionsState) (key value : String) : OptionsState :=
  let (ns, sub) :=
    if key.data.contains '.' then
      let p := splitOnceChar '.' key.data
      (String.mk p.1, String.mk (p.2.getD []))
    else
      let p := splitOnceChar '_' key.data
      (String.mk p.1, String.mk (p.2.getD []))
  let subOptions := match dictGet st.options ns with
    | some (.subMap m) => m
    | _ => []
  if subOptions.any (fun p => p.1 == sub) then
    st.err ("Duplicate \"" ++ key ++ "\" attribute for code chunk")
  else st.set ns (.subMap (subOptions ++ [(sub, .str value)]))

def displayPrefixedKeys (base : String) : List String :=
  [base, "markup_" ++ base, "copied_markup_" ++ base, "code_" ++ base,
   "stdout_" ++ base, "stderr_" ++ base]

def firstNumberKeys : List String := ["first_number", "startFrom", "start-from", "start_from"]

/-- `_kv_processors` dispatch.  The `include_*` family is routed to the
namespace handler; `Include.keywords` itself is defined outside these
sources, so (modelled from the spec, which only requires that the
`include` family of namespaced options route into a nested sub-mapping)
every `include_*` key is accepted by the namespace handler. -/
def pandoc_kv_processor (st : OptionsState) (key value : String) : OptionsState :=
  if key = "complete" ∨ key = "example" ∨ key = "live_output" ∨ key = "outside_main" then
    keyval_bool st key value
  else if (displayPrefixedKeys "expand_tabs").contains key ∨
          (displayPrefixedKeys "rewrap_lines").contains key then
    keyval_bool st key value
  else if key = "jupyter_timeout" ∨ (displayPrefixedKeys "rewrap_width").contains key ∨
          (displayPrefixedKeys "tab_size").contains key then
    keyval_int st key value
  else if firstNumberKeys.contains key then keyval_first_number st key value
  else if pyStartsWith "include_" key then keyval_namespace st key value
  else if lineAnchorsKeys.contains key then keyval_line_anchors st key value
  else if lineNumbersKeys.contains key then keyval_line_numbers st key value
  else keyval_generic st key value

/-! ## `PandocCodeChunk.__init__` (pandoc.py lines 247-313) and the
source-error branch of `PandocCodeChunk.output_nodes` (lines 328-347). -/

/-- The fields of a constructed `PandocCodeChunk` used by the verified
paths. -/

structure PandocCodeChunkData where
  base : CodeChunkData
  node_id : String
  node_classes : List String
  node_kvpairs : List (String × String)
  pandoc_id : String
  pandoc_classes : List String
deriving Repr

/-- `PandocCodeChunk.__init__`: preprocess the node's classes (in class
order, with their index) and key-value attributes (in attribute order)
through the Pandoc processor registries, pop the `codebraid_command` and
`lineAnchors` temporaries, run the base `CodeChunk.__init__` on the
remaining options, then perform the inline-`example` structural check
and assemble the output attribute data.  Returns `none` where the Python
source raises: for an inline chunk, `self.options['example']` reads a
key that option resolution never stores, so the lookup's failure is
modelled as `none` (block chunks never take that branch). -/
def pandoc_code_chunk_init (nodeT : String) (nodeId : String) (classes : List String)
    (kvpairs : List (String × String)) (code : String)
    (source_name : Option String) (source_start_line_number : Option Nat) :
    Option PandocCodeChunkData :=
  let inline := nodeT = "Code"
  let st0 : OptionsState := ⟨[], [], []⟩
  let st1 := (classes.enum).foldl (fun st nc => pandoc_class_processor st nc.1 nc.2) st0
  let st2 := kvpairs.foldl (fun st kv => pandoc_kv_processor st kv.1 kv.2) st1
  let cbCommand := (dictPop st2.options "codebraid_command").1
  let opts1 := (dictPop st2.options "codebraid_command").2
  let lineAnchors := (dictPop opts1 "lineAnchors").1
  let opts2 := (dictPop opts1 "lineAnchors").2
  let command : Option String := match cbCommand with
    | some (.str s) => some s
    | _ => none
  let base := code_chunk_init command code opts2 source_name source_start_line_number
    inline st2.source_errors st2.source_warnings
  let exampleCheck : Option CodeChunkData :=
    if inline then
      match dictGet base.options "example" with
      | some v => some { base with options := dictSet base.options "example" v }
      | none => none
    else some base
  match exampleCheck with
  | none => none
  | some base =>
    let lang := match dictGet opts2 "lang" with
      | some (.str s) => some s
      | _ => none
    let pandocClasses₀ : List String := match lang with
      | some l =>
        let l := if "_repl".data.isSuffixOf l.data then
                   String.mk (splitOnceChar '_' l.data).1
                 else l
        if base.command = some "repl" then [l, "repl"] else [l]
      | none => []
    let pandocClasses₁ := match lineAnchors with
      | some (.bool true) => pandocClasses₀ ++ ["lineAnchors"]
      | _ => pandocClasses₀
    let pandocClasses₂ := match dictGet base.options "code_line_numbers" with
      | some (.bool true) => pandocClasses₁ ++ ["numberLines"]
      | _ => pandocClasses₁
    some { base := base, node_id := nodeId, node_classes := classes,
           node_kvpairs := kvpairs, pandoc_id := nodeId,
           pandoc_classes := pandocClasses₂ }

def pyStrOptNat : Option Nat → String
  | some n => toString n
  | none => "None"

/-- The source-error branch of `PandocCodeChunk.output_nodes`: when the
chunk has accumulated source errors, the output is a single code-shaped
node tagged with the `sourceError` class, carrying a message naming the
source location followed by the error texts — an inline `Code` node with
space-joined errors, or a `CodeBlock` node with newline-joined errors.
The chunk does not execute.  (`runtime_source_error` is set by the
external execution engine; before execution it is absent/false.) -/
def output_nodes_source_error (c : CodeChunkData) (runtimeSourceError : Bool) : List PVal :=
  let message :=
    (if runtimeSourceError then "RUNTIME SOURCE ERROR in \"" else "SOURCE ERROR in \"") ++
    pyStrOpt c.source_name ++ "\" near line " ++
    pyStrOptNat c.source_start_line_number ++ ":"
  if c.inline then
    [.node "Code" (some (.arr [.arr [.str "", .arr [.str "sourceError"], .arr []],
      .str (message ++ " " ++ pyJoin ' ' c.source_errors)])) false]
  else
    [.node "CodeBlock" (some (.arr [.arr [.str "", .arr [.str "sourceError"], .arr []],
      .str (message ++ "\n" ++ pyJoin '\n' c.source_errors)])) false]

/-! ## Separator insertion in `PandocCodeChunk.output_nodes`
(pandoc.py lines 434-446).

When the assembled `unformatted_nodes` are emitted, the Python loop
walks `zip(unformatted_nodes[:-1], unformatted_nodes[1:])`, appending
each node and — when the pair triggers the anti-merging guard — a
zero-width separator (`Str " "` inline, empty `Para` at block level),
then appends the final node. -/

/-- The separator the guard inserts, per mode. -/

def outputSeparator (inline : Bool) : PVal :=
  if inline then .node "Str" (some (.str " ")) false
  else .node "Para" (some (.arr [])) false

/-- The Python zip-loop, verbatim: `t_code`/`t_raw` are the mode's code
and raw node kinds; a separator follows `node` when `node` or
`next_node` is raw-kind, or (inline) both are code-kind. -/
def output_nodes_assemble (inline : Bool) (unformatted : List PVal) : List PVal :=
  let t_code := if inline then "Code" else "CodeBlock"
  let t_raw := if inline then "RawInline" else "RawBlock"
  match unformatted with
  | [] => []
  | u :: us =>
    (List.zip ((u :: us).dropLast) ((u :: us).tail)).foldl
      (fun nodes pair =>
        let nodes := nodes ++ [pair.1]
        if pair.1.tag = some t_raw ∨ pair.2.tag = some t_raw then
          nodes ++ [outputSeparator inline]
        else if inline ∧ pair.1.tag = some t_code ∧ pair.2.tag = some t_code then
          nodes ++ [.node "Str" (some (.str " ")) false]
        else nodes)
      []
    ++ [(u :: us).getLast (List.cons_ne_nil u us)]

/-- The separator-insertion rule as the amended claim states it: walking
the assembled output nodes pairwise, a separator is inserted between two
adjacent nodes exactly when at least one of the two is a raw-kind node,
or the chunk is inline and both are code-kind nodes. -/
def output_nodes_with_separators (inline : Bool) : List PVal → List PVal
  | [] => []
  | [a] => [a]
  | a :: b :: rest =>
    let t_code := if inline then "Code" else "CodeBlock"
    let t_raw := if inline then "RawInline" else "RawBlock"
    a :: ((if a.tag = some t_raw ∨ b.tag = some t_raw ∨
              (inline ∧ a.tag = some t_code ∧ b.tag = some t_code)
           then [outputSeparator inline] else [])
      ++ output_nodes_with_separators inline (b :: rest))

/-- The loop body of `output_nodes_assemble`, factored out for the
equivalence proof. -/
def assembleStep (inline : Bool) (nodes : List PVal) (pair : PVal × PVal) : List PVal :=
  let t_code := if inline then "Code" else "CodeBlock"
  let t_raw := if inline then "RawInline" else "RawBlock"
  let nodes := nodes ++ [pair.1]
  if pair.1.tag = some t_raw ∨ pair.2.tag = some t_raw then
    nodes ++ [outputSeparator inline]
  else if inline ∧ pair.1.tag = some t_code ∧ pair.2.tag = some t_code then
    nodes ++ [.node "Str" (some (.str " ")) false]
  else nodes

/-! ## Marker scanning (`PandocConverter._find_cb_command`, pandoc.py
lines 916-979).

The scanner walks the raw source text, finding every occurrence of the
literal `.cb.`, computing its 1-based line number by counting newlines
since the previous scan position, trying to read a command name of at
most `max(len(command))` characters terminated by one of `} \t\n` (an
out-of-range slice `text[i:i+1]` is the empty string, which is not in
the terminator set), and judging from the characters immediately before
and after whether the occurrence may be real code attributes. -/

/-- First index `≥ start` at which `pat` occurs in the text
(`text.find(pat, start)`); `rest` is `text[start:]`. -/

def findSubAux (pat : List Char) : List Char → Nat → Option Nat
  | [], i => if pat = [] then some i else none
  | c :: rest, i =>
    if pat.isPrefixOf (c :: rest) then some i else findSubAux pat rest (i + 1)

def findSub (pat text : List Char) (start : Nat) : Option Nat :=
  findSubAux pat (text.drop start) start

/-- `text.count('\n', a, b)`. -/
def countNewlines (text : List Char) (a b : Nat) : Nat :=
  ((text.drop a).take (b - a)).count '\n'

/-- Python's "{" and "}" characters. -/
def openBrace : Char := Char.ofNat 123

def closeBrace : Char := Char.ofNat 125

/-- `before_attr_chars = set('{ \t\n')`. -/
def beforeAttrChars : List Char := [openBrace, ' ', '\t', '\n']

/-- `after_attr_chars = set('} \t\n')`. -/
def afterAttrChars : List Char := [closeBrace, ' ', '\t', '\n']

/-- `text[i:i+1] in chars`: false when the slice is empty (out of
range). -/
def sliceCharIn (text : List Char) (i : Nat) (chars : List Char) : Bool :=
  match text.get? i with
  | some c => chars.contains c
  | none => false

/-- The bounded scan for the end of `.cb.<command>`: starting at
`pos = found + 4`, check at most `max_command_len + 1` positions for a
terminator character; `none` models Python's `-1` when the loop runs
out. -/
def scanCommandEnd (text : List Char) : Nat → Nat → Option Nat
  | _, 0 => none
  | pos, n + 1 =>
    if sliceCharIn text pos afterAttrChars then some pos
    else scanCommandEnd text (pos + 1) n

/-- `max(len(x) for x in CodeChunk.commands)` for commands
`code`, `run`. -/
def maxCommandLen : Nat := 4

/-- One scanned occurrence:
`(<index>, <line_number>, <maybe_codebraid_attr>, <command>)`. -/
structure CbOccurrence where
  index : Nat
  line : Nat
  maybeAttr : Bool
  command : Option String
deriving Repr

/-- The scanner's `while True` loop, fuel-indexed (each iteration
advances the scan position by at least 4, so `text.length + 1` fuel
always computes the full result). -/
def find_cb_command_aux (text : List Char) : Nat → Nat → Nat → List CbOccurrence
  | 0, _, _ => []
  | fuel + 1, lineNum, start =>
    match findSub ['.', 'c', 'b', '.'] text start with
    | none => []
    | some found =>
      let lineNum := lineNum + countNewlines text start found
      let endIdx := scanCommandEnd text (found + 4) (maxCommandLen + 1)
      let command : Option String :=
        match endIdx with
        | none => none
        | some e =>
          let cmd := String.mk ((text.drop (found + 4)).take (e - (found + 4)))
          if codeChunkCommands.contains cmd then some cmd else none
      let newStart :=
        match command, endIdx with
        | some _, some e => e
        | _, _ => found + 4
      let maybeAttr :=
        if found < 4 ∨ ¬ sliceCharIn text (found - 1) beforeAttrChars then false
        else
          match command, endIdx with
          | some _, some e => if ¬ sliceCharIn text e afterAttrChars then false else true
          | _, _ => true
      ⟨found, lineNum, maybeAttr, command⟩ :: find_cb_command_aux text fuel lineNum newStart

/-- `PandocConverter._find_cb_command(text)`. -/
def _find_cb_command (text : String) : List CbOccurrence :=
  find_cb_command_aux text.data (text.data.length + 1) 1 0

/-! ## Trace matcher, equal-length branch
(`PandocConverter._load_and_process_initial_ast`, pandoc.py lines
1063-1082).

`sources_cb` pairs every scanned occurrence with its source name, in
text order; the Python code reverses the list and pops from the end, so
the stack is embedded as a list whose head is the next occurrence in
text order.  For each chunk (in tree-discovery order) the matcher pops
occurrences, skipping those whose command does not match and replaying
the skipped ones, in their original order, on top of the remaining
stack after the match.  A pop from an empty stack raises `IndexError`
in Python; the embedding returns `none` for the whole match in that
case. -/

/-- A scanned occurrence paired with its source name. -/

structure SrcOcc where
  name : String
  occ : CbOccurrence
deriving Repr

/-- A discovered chunk as the matcher sees it. -/
structure MatchChunk where
  command : Option String
  inline : Bool
deriving Repr

/-- A chunk with its matched occurrence and the assigned location. -/
structure MatchedChunk where
  chunk : MatchChunk
  occ : SrcOcc
  source_name : String
  source_start_line_number : Nat
deriving Repr

/-- Pop occurrences until one whose command equals `cmd` appears;
skipped occurrences are replayed, in order, on top of the remaining
stack.  `none` models the `IndexError` of popping an empty stack. -/
def popMatching (cmd : Option String) : List SrcOcc → List SrcOcc →
    Option (SrcOcc × List SrcOcc)
  | [], _ => none
  | o :: rest, skipped =>
    if o.occ.command = cmd then some (o, skipped ++ rest)
    else popMatching cmd rest (skipped ++ [o])

/-- The equal-length matching loop: assign to each chunk, in discovery
order, the next occurrence with the same command; a block chunk gets the
marker's line plus one, an inline chunk the marker's own line. -/
def match_chunks_equal_len : List MatchChunk → List SrcOcc → Option (List MatchedChunk)
  | [], _ => some []
  | c :: cs, stack =>
    match popMatching c.command stack [] with
    | none => none
    | some (o, rest) =>
      match match_chunks_equal_len cs rest with
      | none => none
      | some ms =>
        some (⟨c, o, o.name,
               if c.inline then o.occ.line else o.occ.line + 1⟩ :: ms)

/-- The concrete source text of scenario A: an inline `.cb.run` chunk
whose marker sits on line 5 (four newlines precede it). -/
def scenarioAText : String := "\n\n\n\n`x+1`\x7b.cb.run\x7d\n"

/-- The occurrence stack built from scanning scenario A's source under
the source name `<string>`. -/
def scenarioAStack : List SrcOcc :=
  (_find_cb_command scenarioAText).map (fun r => ⟨"<string>", r⟩)

/-! ## Theorems -/

/-- C1: for every raw node (kind `RawBlock` or `RawInline`, payload
`[format, content]`), freezing and then thawing in place succeeds and
restores the store exactly: the node at the same id `i` is the original
node (same kind, same raw format string, same content) and every other id
is untouched, so the thawed node is the node that was frozen, not a copy.
The frozen intermediate carries the reserved `codebraid--temp` marker
class, and the thawed node does not carry it. -/
theorem freeze_thaw_raw_node_roundtrip
    (s : NodeStore) (i : Nat) (t fmt content : String) (pseudo : Bool)
    (ht : t = "RawBlock" ∨ t = "RawInline")
    (hs : s i = .node t (some (.arr [.str fmt, .str content])) pseudo) :
    ∃ s₁, freeze_raw_node_at s i = some s₁ ∧
      PVal.hasClass (s₁ i) "codebraid--temp" = true ∧
      thaw_raw_node_at s₁ i = some s ∧
      PVal.hasClass (s i) "codebraid--temp" = false := by
  rcases ht with ht | ht
  · subst ht
    refine ⟨Function.update s i
      (.node "CodeBlock" (some (.arr [.arr [.str "", .arr [.str "codebraid--temp"],
        .arr [.arr [.str "format", .str fmt]]], .str content])) pseudo), ?_, ?_, ?_, ?_⟩
    · simp [freeze_raw_node_at, freeze_raw_node, hs]
    · rw [Function.update_same]; rfl
    · unfold thaw_raw_node_at
      rw [Function.update_same]
      change some (Function.update (Function.update s i _) i
        (PVal.node "RawBlock" (some (.arr [.str fmt, .str content])) pseudo)) = some s
      rw [Function.update_idem, ← hs, Function.update_eq_self]
    · rw [hs]; rfl
  · subst ht
    refine ⟨Function.update s i
      (.node "Code" (some (.arr [.arr [.str "", .arr [.str "codebraid--temp"],
        .arr [.arr [.str "format", .str fmt]]], .str content])) pseudo), ?_, ?_, ?_, ?_⟩
    · simp [freeze_raw_node_at, freeze_raw_node, hs]
    · rw [Function.update_same]; rfl
    · unfold thaw_raw_node_at
      rw [Function.update_same]
      change some (Function.update (Function.update s i _) i
        (PVal.node "RawInline" (some (.arr [.str fmt, .str content])) pseudo)) = some s
      rw [Function.update_idem, ← hs, Function.update_eq_self]
    · rw [hs]; rfl

/-- Witness for `freeze_thaw_raw_node_roundtrip` at a concrete store
holding one `RawInline` html node. -/
theorem freeze_thaw_raw_node_roundtrip_witness :
    ∃ s₁, freeze_raw_node_at
        (fun _ => .node "RawInline" (some (.arr [.str "html", .str "<b>x</b>"])) false) 0
        = some s₁ ∧
      PVal.hasClass (s₁ 0) "codebraid--temp" = true ∧
      thaw_raw_node_at s₁ 0 =
        some (fun _ => .node "RawInline" (some (.arr [.str "html", .str "<b>x</b>"])) false) ∧
      PVal.hasClass
        ((fun _ => .node "RawInline" (some (.arr [.str "html", .str "<b>x</b>"])) false : NodeStore) 0)
        "codebraid--temp" = false :=
  freeze_thaw_raw_node_roundtrip _ 0 "RawInline" "html" "<b>x</b>" false (Or.inr rfl) rfl

theorem postprocess_code_chunks_eq_spliceSuffix (s : ListStore) (cs : List SpliceChunk) :
    postprocess_code_chunks s cs = spliceSuffix s cs := by
  induction cs with
  | nil => rfl
  | cons c cs ih =>
    unfold postprocess_code_chunks at *
    rw [List.reverse_cons, List.foldl_append, ih]
    rfl

/-- Replacing the slot at index `j` by `out` does not disturb any earlier
occupied index `i < j`. -/
theorem splice_preserves_earlier_slot {l : List PVal} {i j : Nat} {v : PVal}
    (out : List PVal) (hij : i < j) (hv : l.get? i = some v) :
    (l.take j ++ out ++ l.drop (j + 1)).get? i = some v := by
  have hi : i < l.length := by
    by_contra h
    rw [List.get?_eq_none.mpr (Nat.le_of_not_lt h)] at hv
    exact Option.noConfusion hv
  have hlen : i < (l.take j).length := by
    rw [List.length_take]
    exact lt_min hij hi
  rw [List.append_assoc, List.get?_append hlen, List.get?_take hij]
  exact hv

/-- C2: index stability of the splice pass.  Whenever the discovered
chunks are ordered so that chunks sharing a containing list have strictly
increasing recorded indices in discovery order (which the single-pass
tree walk guarantees), and every chunk's recorded slot initially holds
its originating node, then at the moment any chunk `c` is processed by
the reverse pass — i.e. after all chunks discovered later than `c` have
been spliced — the recorded list id and index of `c` still refer to `c`'s
original node. -/
theorem splice_reverse_order_index_stable
    (s : ListStore) (cs : List SpliceChunk)
    (hord : cs.Pairwise (fun a b => a.lid = b.lid → a.idx < b.idx))
    (hvalid : ∀ c ∈ cs, (s c.lid).get? c.idx = some c.orig)
    (cs₁ cs₂ : List SpliceChunk) (c : SpliceChunk)
    (hsplit : cs = cs₁ ++ c :: cs₂) :
    ((postprocess_code_chunks s cs₂) c.lid).get? c.idx = some c.orig := by
  rw [postprocess_code_chunks_eq_spliceSuffix]
  subst hsplit
  have hc : c ∈ cs₁ ++ c :: cs₂ := by
    exact List.mem_append_right _ (List.mem_cons_self _ _)
  have hafter : ∀ d ∈ cs₂, c.lid = d.lid → c.idx < d.idx := by
    intro d hd
    have := (List.pairwise_append.mp hord).2.1
    exact (List.pairwise_cons.mp this).1 d hd
  have hbase := hvalid c hc
  clear hvalid hord hc
  induction cs₂ with
  | nil => exact hbase
  | cons d ds ih =>
    have hd : c.lid = d.lid → c.idx < d.idx := hafter d (List.mem_cons_self _ _)
    have hih := ih (fun e he h => hafter e (List.mem_cons_of_mem _ he) h)
    show ((update_parent_node (spliceSuffix s ds) d) c.lid).get? c.idx = some c.orig
    unfold update_parent_node
    by_cases hlid : c.lid = d.lid
    · simp only [hlid, if_pos rfl]
      rw [← hlid]
      exact splice_preserves_earlier_slot d.out (hd hlid) hih
    · simp only [if_neg hlid]
      exact hih

/-- Witness for `splice_reverse_order_index_stable`: two chunks in the
same node list (indices 0 and 2), the later chunk producing two output
nodes; after the later chunk is spliced, index 0 still holds the earlier
chunk's original node. -/
theorem splice_reverse_order_index_stable_witness :
    ((postprocess_code_chunks
        (fun _ => [.node "CodeBlock" none false, .str "mid", .node "Code" none false])
        [⟨0, 2, .node "Code" none false, [.str "o1", .str "o2"]⟩]) 0).get? 0 =
      some (.node "CodeBlock" none false) :=
  splice_reverse_order_index_stable
    (fun _ => [.node "CodeBlock" none false, .str "mid", .node "Code" none false])
    [⟨0, 0, .node "CodeBlock" none false, []⟩, ⟨0, 2, .node "Code" none false, [.str "o1", .str "o2"]⟩]
    (by
      constructor
      · intro b hb h
        simp only [List.mem_singleton] at hb
        subst hb
        exact Nat.zero_lt_succ 1
      · constructor
        · intro b hb
          exact absurd hb (List.not_mem_nil b)
        · exact List.Pairwise.nil)
    (by
      intro c hc
      rcases List.mem_cons.mp hc with h | h
      · subst h; rfl
      · rcases List.mem_cons.mp h with h | h
        · subst h; rfl
        · exact absurd h (List.not_mem_nil c))
    [] [⟨0, 2, .node "Code" none false, [.str "o1", .str "o2"]⟩]
    ⟨0, 0, .node "CodeBlock" none false, []⟩ rfl

/-- C5: the walker's `in_note` flag leaks to later siblings.  Walking
`[Note [Para], Str]` (no filter, notes not skipped) yields the `Str`
node — which does not lie inside any `Note` — with `in_note = true`,
because the `Note` branch's `in_note = True` assignment persists for the
remaining iterations of the enumeration loop.  This contradicts the
walker's own contract (docstring: the boolean indicates "whether the
node is inside a note"). -/
theorem walk_note_in_note_flag_leaks_to_sibling :
    (walk_node_list 10 noteSiblingList (.node "Pandoc" none false) none false).map
      (fun e => (e.node.tag, e.index, e.inNote)) =
    [(some "Note", 0, false), (some "Para", 0, true), (some "Str", 1, true)] := rfl

/-- C3: option defaulting completeness.  For every supported command
(`code`, `run`) and for both inline and block modes, resolving the
options of a chunk with zero user-supplied attributes yields exactly the
declared default table for that mode; in particular the inline default
show-spec is `expression: raw, stderr: verbatim`. -/
theorem option_defaulting_complete (command : Option String)
    (hcmd : command = some "code" ∨ command = some "run")
    (code : String) (inline : Bool) :
    (code_chunk_init command code [] none none inline [] []).options =
      (if inline then _cb_default_inline_options else _cb_default_options) ∧
    dictGet _cb_default_inline_options "show" =
      some (.showSpec [("expression", "raw"), ("stderr", "verbatim")]) :=
  ⟨rfl, rfl⟩

/-- Witness for `option_defaulting_complete`: the `run` command, inline
mode. -/
theorem option_defaulting_complete_witness :
    (code_chunk_init (some "run") "x+1" [] none none true [] []).options =
      (if true then _cb_default_inline_options else _cb_default_options) ∧
    dictGet _cb_default_inline_options "show" =
      some (.showSpec [("expression", "raw"), ("stderr", "verbatim")]) :=
  option_defaulting_complete (some "run") (Or.inr rfl) "x+1" true

/-- C7 counterexample: the claim "the first occurrence of a duplicated
channel wins and the later duplicate is dropped, for every show value
containing a repeated channel" fails at `show=stdout:bad+stdout`.  The
first `stdout` occurrence has an invalid format, so it never enters the
resolved mapping; the later `stdout` occurrence is then resolved
normally rather than dropped, and the single recorded warning is the
invalid-value warning, not a duplicate-channel warning. -/
theorem show_duplicate_first_wins_counterexample :
    dictGet (_cb_option_show false "show" (.str "stdout:bad+stdout")
        ⟨_cb_default_options, [], []⟩).options "show" =
      some (.showSpec [("stdout", "verbatim")]) ∧
    (_cb_option_show false "show" (.str "stdout:bad+stdout")
        ⟨_cb_default_options, [], []⟩).source_warnings =
      ["Invalid \"show\" value \"stdout:bad+stdout\" in code chunk"] :=
  ⟨rfl, rfl⟩

/-- C7 amended: resolving `show=code+stdout:raw+stdout` records exactly
one source warning (for the duplicate channel) and yields the show-spec
`code: verbatim, stdout: raw`; in general, a `show` token whose channel
has already been resolved into the mapping is dropped with a
duplicate-channel warning — the first successfully resolved occurrence
of a channel wins, while a channel whose earlier occurrence was itself
invalid (and thus never entered the mapping) is resolved afresh. -/
theorem show_duplicate_channel_amended :
    (dictGet (_cb_option_show false "show" (.str "code+stdout:raw+stdout")
        ⟨_cb_default_options, [], []⟩).options "show" =
      some (.showSpec [("code", "verbatim"), ("stdout", "raw")]) ∧
     (_cb_option_show false "show" (.str "code+stdout:raw+stdout")
        ⟨_cb_default_options, [], []⟩).source_warnings =
      ["Option \"show\" value \"code+stdout:raw+stdout\" contains duplicate \"stdout\" in code chunk"]) ∧
    ∀ (inline : Bool) (value token : String)
      (processed : List (String × String)) (warnings : List String),
      processed.any (fun p => p.1 == (splitShowToken token).1) = true →
      processShowToken inline value (processed, warnings) token =
        (processed, warnings ++
          ["Option \"show\" value \"" ++ value ++ "\" contains duplicate \"" ++
           (splitShowToken token).1 ++ "\" in code chunk"]) := by
  refine ⟨⟨rfl, rfl⟩, ?_⟩
  intro inline value token processed warnings h
  rcases hsp : splitShowToken token with ⟨o, f⟩
  rw [hsp] at h
  simp [processShowToken, hsp, h]

/-- Witness for `show_duplicate_channel_amended`'s universally
quantified part, at the duplicate `stdout` token of scenario C. -/
theorem show_duplicate_channel_amended_witness :
    processShowToken false "code+stdout:raw+stdout"
        ([("code", "verbatim"), ("stdout", "raw")], []) "stdout" =
      ([("code", "verbatim"), ("stdout", "raw")],
       ["Option \"show\" value \"code+stdout:raw+stdout\" contains duplicate \"stdout\" in code chunk"]) :=
  show_duplicate_channel_amended.2 false "code+stdout:raw+stdout" "stdout"
    [("code", "verbatim"), ("stdout", "raw")] [] rfl

/-! Each registered option handler other than `_cb_option_unknown` only
issues warnings or stores values, so it leaves `source_errors`
untouched; `_cb_option_unknown` appends one message.  Hence the
resolution fold only ever appends to `source_errors`. -/

theorem _cb_option_bool_errs (k : String) (v : OptVal) (st : OptionsState) :
    (_cb_option_bool k v st).source_errors = st.source_errors := by
  cases v <;> rfl

theorem _cb_option_str_errs (k : String) (v : OptVal) (st : OptionsState) :
    (_cb_option_str k v st).source_errors = st.source_errors := by
  cases v <;> rfl

theorem _cb_option_first_number_errs (k : String) (v : OptVal) (st : OptionsState) :
    (_cb_option_first_number k v st).source_errors = st.source_errors := by
  cases v <;> (try simp only [_cb_option_first_number]) <;> (repeat' split) <;> rfl

theorem _cb_option_label_errs (k : String) (v : OptVal) (st : OptionsState) :
    (_cb_option_label k v st).source_errors = st.source_errors := by
  unfold _cb_option_label
  split
  · rfl
  · cases v <;> rfl

theorem _cb_option_show_errs (inline : Bool) (k : String) (v : OptVal) (st : OptionsState) :
    (_cb_option_show inline k v st).source_errors = st.source_errors := by
  cases v <;> (try simp only [_cb_option_show]) <;> (repeat' split) <;> rfl

theorem _cb_option_hide_errs (k : String) (v : OptVal) (st : OptionsState) :
    (_cb_option_hide k v st).source_errors = st.source_errors := by
  cases v <;> (try simp only [_cb_option_hide]) <;> (repeat' split) <;> rfl

/-- Every option processor only ever appends to the chunk's
`source_errors` list: membership is preserved. -/
theorem option_processor_preserves_error_mem
    (inline : Bool) (k : String) (v : OptVal) (st : OptionsState) (x : String)
    (hx : x ∈ st.source_errors) :
    x ∈ (_cb_option_processors inline k v st).source_errors := by
  unfold _cb_option_processors
  repeat' split
  · rw [_cb_option_hide_errs]; exact hx
  · rw [_cb_option_first_number_errs]; exact hx
  · rw [_cb_option_label_errs]; exact hx
  · rw [_cb_option_str_errs]; exact hx
  · rw [_cb_option_bool_errs]; exact hx
  · rw [_cb_option_str_errs]; exact hx
  · rw [_cb_option_show_errs]; exact hx
  · exact List.mem_append_left _ hx

/-- The option-resolution fold only ever appends to `source_errors`. -/
theorem options_fold_preserves_error_mem
    (inline : Bool) (options : OptDict) (st : OptionsState) (x : String)
    (hx : x ∈ st.source_errors) :
    x ∈ (options.foldl (fun st kv => _cb_option_processors inline kv.1 kv.2 st) st).source_errors := by
  induction options generalizing st with
  | nil => exact hx
  | cons kv rest ih =>
    exact ih _ (option_processor_preserves_error_mem inline kv.1 kv.2 st x hx)

/-- C10: constructing any inline chunk whose code spans more than one
line appends the source error `Inline code cannot be longer that 1 line`
to the chunk's error list, so the chunk is left with a nonempty
`source_errors` list (the non-executable marker that later makes
`output_nodes` render an error annotation instead of output). -/
theorem inline_multiline_code_error (command : Option String) (code : String)
    (options : OptDict) (sn : Option String) (sl : Option Nat)
    (pe pw : List String)
    (h : 1 < (splitlines_lf code).length) :
    "Inline code cannot be longer that 1 line" ∈
      (code_chunk_init command code options sn sl true pe pw).source_errors := by
  simp only [code_chunk_init]
  apply options_fold_preserves_error_mem
  simp [h]

/-- Witness for `inline_multiline_code_error` at two-line inline code. -/
theorem inline_multiline_code_error_witness :
    "Inline code cannot be longer that 1 line" ∈
      (code_chunk_init (some "run") "a\nb" [] none none true [] []).source_errors :=
  inline_multiline_code_error (some "run") "a\nb" [] none none [] [] (by decide)

theorem output_nodes_assemble_eq_foldl (inline : Bool) (u : PVal) (us : List PVal) :
    output_nodes_assemble inline (u :: us) =
      (List.zip ((u :: us).dropLast) ((u :: us).tail)).foldl (assembleStep inline) []
        ++ [(u :: us).getLast (List.cons_ne_nil u us)] := rfl

theorem assembleStep_acc (inline : Bool) (acc : List PVal) (z : PVal × PVal) :
    assembleStep inline acc z = acc ++ assembleStep inline [] z := by
  unfold assembleStep
  dsimp only
  split <;> (try split) <;> (try split) <;> simp

theorem assemble_foldl_acc (inline : Bool) (zs : List (PVal × PVal)) (acc : List PVal) :
    zs.foldl (assembleStep inline) acc = acc ++ zs.foldl (assembleStep inline) [] := by
  induction zs generalizing acc with
  | nil => simp
  | cons z zs ih =>
    rw [List.foldl_cons, List.foldl_cons, ih, assembleStep_acc,
      ih (assembleStep inline [] z), List.append_assoc]

/-- C9 amended: the separator pass of `output_nodes` inserts a separator
between two adjacent output nodes exactly when at least one of the two
is a raw-kind node (raw next to raw, but also raw next to code or any
other kind), or the chunk is inline and both nodes are inline code
nodes; in all other adjacent pairs no separator appears. -/
theorem output_separator_characterization (inline : Bool) (unformatted : List PVal) :
    output_nodes_assemble inline unformatted =
      output_nodes_with_separators inline unformatted := by
  match unformatted with
  | [] => rfl
  | [a] => rfl
  | a :: b :: rest =>
    rw [output_nodes_assemble_eq_foldl]
    have hzip : List.zip ((a :: b :: rest).dropLast) ((a :: b :: rest).tail) =
        (a, b) :: List.zip ((b :: rest).dropLast) ((b :: rest).tail) := by
      cases rest with
      | nil => rfl
      | cons c cs => rfl
    rw [hzip, List.foldl_cons, assemble_foldl_acc, List.getLast_cons (List.cons_ne_nil b rest)]
    have ih := output_separator_characterization inline (b :: rest)
    rw [output_nodes_assemble_eq_foldl] at ih
    show (assembleStep inline [] (a, b) ++ List.foldl (assembleStep inline) []
        (List.zip ((b :: rest).dropLast) ((b :: rest).tail)))
      ++ [(b :: rest).getLast (List.cons_ne_nil b rest)] =
      output_nodes_with_separators inline (a :: b :: rest)
    rw [List.append_assoc, ih]
    have hstep : assembleStep inline [] (a, b) =
        a :: (if a.tag = some (if inline then "RawInline" else "RawBlock") ∨
                 b.tag = some (if inline then "RawInline" else "RawBlock") ∨
                 (inline ∧ a.tag = some (if inline then "Code" else "CodeBlock") ∧
                    b.tag = some (if inline then "Code" else "CodeBlock"))
              then [outputSeparator inline] else []) := by
      unfold assembleStep
      by_cases hraw : a.tag = some (if inline then "RawInline" else "RawBlock") ∨
          b.tag = some (if inline then "RawInline" else "RawBlock")
      · rcases hraw with h | h <;> simp [h]
      · by_cases hcode : inline ∧ a.tag = some (if inline then "Code" else "CodeBlock") ∧
            b.tag = some (if inline then "Code" else "CodeBlock")
        · have hsep : outputSeparator inline = .node "Str" (some (.str " ")) false := by
            unfold outputSeparator
            rw [if_pos hcode.1]
          simp only [hraw, hcode, hsep]
          simp
          rw [← hcode.1]
          exact hsep.symm
        · simp [hraw, hcode]
    show assembleStep inline [] (a, b) ++ output_nodes_with_separators inline (b :: rest) =
      a :: ((if a.tag = some (if inline then "RawInline" else "RawBlock") ∨
                b.tag = some (if inline then "RawInline" else "RawBlock") ∨
                (inline ∧ a.tag = some (if inline then "Code" else "CodeBlock") ∧
                   b.tag = some (if inline then "Code" else "CodeBlock"))
             then [outputSeparator inline] else [])
        ++ output_nodes_with_separators inline (b :: rest))
    rw [hstep]
    simp [List.cons_append]

/-- C9 counterexample: an inline `Code` node followed by a `RawInline`
node is neither a raw-next-to-raw pair nor a code-next-to-code pair, yet
the splicer inserts a `Str " "` separator between the two (the guard
fires whenever either neighbour is raw-kind, not only when both are). -/
theorem output_separator_counterexample :
    output_nodes_assemble true
      [.node "Code" (some (.arr [.arr [.str "", .arr [.str "expr"], .arr []], .str "2"])) false,
       .node "RawInline" (some (.arr [.str "markdown", .str "*two*"])) false] =
    [.node "Code" (some (.arr [.arr [.str "", .arr [.str "expr"], .arr []], .str "2"])) false,
     .node "Str" (some (.str " ")) false,
     .node "RawInline" (some (.arr [.str "markdown", .str "*two*"])) false] := rfl

/-- C8 counterexample: a block `cb.run` chunk whose attributes carry the
duplicate pair `label="a" label="b"`.  The duplicate is caught by the
generic key-value preprocessor, which appends to `source_errors` — not
to `source_warnings` — so the chunk carries a source **error**, and
`output_nodes` therefore yields a `sourceError` annotation instead of
execution output, contrary to the claim that a duplicate label is only
a warning, that no error annotation appears and that the chunk still
executes.  (The resolved `label` is still `"a"`: first value wins.) -/
theorem duplicate_label_counterexample :
    (pandoc_code_chunk_init "CodeBlock" "" ["python", "cb.run"]
        [("label", "a"), ("label", "b")] "print(1)" (some "<string>") (some 1)).map
      (fun c => (c.base.source_errors, c.base.source_warnings,
                 dictGet c.base.options "label", output_nodes_source_error c.base false)) =
    some (["Duplicate \"label\" attribute for code chunk"], [], some (.str "a"),
      [.node "CodeBlock" (some (.arr [.arr [.str "", .arr [.str "sourceError"], .arr []],
        .str "SOURCE ERROR in \"<string>\" near line 1:\nDuplicate \"label\" attribute for code chunk"])) false]) := rfl

/-- C8 amended: for every pair of values `v1`, `v2`, a block chunk with
the duplicate attribute pair `label=v1 label=v2` records exactly one
diagnostic — the source error `Duplicate "label" attribute for code
chunk` from the generic key-value handler — and resolves `label` to the
first value `v1`; because the diagnostic is a source error rather than a
warning, the chunk is non-executable and its output is the single
`sourceError` error annotation. -/
theorem duplicate_label_amended (v1 v2 : String) :
    (pandoc_code_chunk_init "CodeBlock" "" ["python", "cb.run"]
        [("label", v1), ("label", v2)] "print(1)" (some "<string>") (some 1)).map
      (fun c => (c.base.source_errors, c.base.source_warnings,
                 dictGet c.base.options "label",
                 (output_nodes_source_error c.base false).map PVal.tag)) =
    some (["Duplicate \"label\" attribute for code chunk"], [], some (.str v1),
      [some "CodeBlock"]) := rfl

theorem popMatching_command (cmd : Option String) (stack skipped : List SrcOcc)
    (o : SrcOcc) (rest : List SrcOcc)
    (h : popMatching cmd stack skipped = some (o, rest)) :
    o.occ.command = cmd := by
  induction stack generalizing skipped with
  | nil => exact absurd h (by simp [popMatching])
  | cons x xs ih =>
    unfold popMatching at h
    by_cases hx : x.occ.command = cmd
    · rw [if_pos hx] at h
      obtain ⟨rfl, -⟩ := Prod.mk.injEq .. ▸ Option.some.injEq .. ▸ h
      exact hx
    · rw [if_neg hx] at h
      exact ih _ h

/-- C4: every chunk the equal-length trace matcher matches to a source
occurrence is assigned that occurrence's source name, and its source
start line number is the marker's own line for an inline chunk and the
marker's line plus one for a block chunk; the matched occurrence always
carries the chunk's own command. -/
theorem trace_match_assigns_marker_line (cs : List MatchChunk) (stack : List SrcOcc)
    (ms : List MatchedChunk) (h : match_chunks_equal_len cs stack = some ms) :
    ∀ m ∈ ms, m.source_name = m.occ.name ∧
      m.source_start_line_number =
        (if m.chunk.inline then m.occ.occ.line else m.occ.occ.line + 1) ∧
      m.occ.occ.command = m.chunk.command := by
  induction cs generalizing stack ms with
  | nil =>
    unfold match_chunks_equal_len at h
    obtain rfl := Option.some.injEq .. ▸ h
    intro m hm
    exact absurd hm (List.not_mem_nil m)
  | cons c cs ih =>
    unfold match_chunks_equal_len at h
    rcases hp : popMatching c.command stack [] with - | ⟨o, rest⟩
    · rw [hp] at h; exact absurd h (by simp)
    · rw [hp] at h
      dsimp only at h
      rcases hr : match_chunks_equal_len cs rest with - | ms'
      · rw [hr] at h; exact absurd h (by simp)
      · rw [hr] at h
        dsimp only at h
        obtain rfl := Option.some.injEq .. ▸ h
        intro m hm
        rcases List.mem_cons.mp hm with rfl | hm'
        · exact ⟨rfl, rfl, popMatching_command c.command stack [] o rest hp⟩
        · exact ih rest ms' hr m hm'

/-- Witness for `trace_match_assigns_marker_line`: scanning scenario A
finds exactly one occurrence — `.cb.run` at index 10, line 5, judged a
possible attribute — and matching the single inline `run` chunk against
it assigns source name `<string>` and line 5. -/
theorem trace_match_assigns_marker_line_witness :
    scenarioAStack = [⟨"<string>", ⟨10, 5, true, some "run"⟩⟩] ∧
    match_chunks_equal_len [⟨some "run", true⟩] scenarioAStack =
      some [⟨⟨some "run", true⟩, ⟨"<string>", ⟨10, 5, true, some "run"⟩⟩, "<string>", 5⟩] ∧
    (∀ m ∈ [(⟨⟨some "run", true⟩, ⟨"<string>", ⟨10, 5, true, some "run"⟩⟩, "<string>", 5⟩ : MatchedChunk)],
      m.source_name = m.occ.name ∧
      m.source_start_line_number =
        (if m.chunk.inline then m.occ.occ.line else m.occ.occ.line + 1) ∧
      m.occ.occ.command = m.chunk.command) :=
  ⟨rfl, rfl,
   trace_match_assigns_marker_line [⟨some "run", true⟩] scenarioAStack _ rfl⟩

theorem popMatching_none_of_no_match (cmd : Option String) (stack skipped : List SrcOcc)
    (h : ∀ o ∈ stack, o.occ.command ≠ cmd) :
    popMatching cmd stack skipped = none := by
  induction stack generalizing skipped with
  | nil => rfl
  | cons x xs ih =>
    unfold popMatching
    rw [if_neg (h x (List.mem_cons_self x xs))]
    exact ih _ (fun o ho => h o (List.mem_cons_of_mem x ho))

theorem popMatching_rest_mem (cmd : Option String) (stack skipped : List SrcOcc)
    (o : SrcOcc) (rest : List SrcOcc)
    (h : popMatching cmd stack skipped = some (o, rest)) :
    ∀ x ∈ rest, x ∈ skipped ∨ x ∈ stack := by
  induction stack generalizing skipped with
  | nil => exact absurd h (by simp [popMatching])
  | cons y ys ih =>
    unfold popMatching at h
    by_cases hy : y.occ.command = cmd
    · rw [if_pos hy] at h
      obtain ⟨-, rfl⟩ := Prod.mk.injEq .. ▸ Option.some.injEq .. ▸ h
      intro x hx
      rcases List.mem_append.mp hx with hx | hx
      · exact Or.inl hx
      · exact Or.inr (List.mem_cons_of_mem y hx)
    · rw [if_neg hy] at h
      intro x hx
      rcases ih _ h x hx with hx' | hx'
      · rcases List.mem_append.mp hx' with hx' | hx'
        · exact Or.inl hx'
        · exact Or.inr (List.mem_cons.mpr (Or.inl (List.mem_singleton.mp hx')))
      · exact Or.inr (List.mem_cons_of_mem y hx')

/-- C6: if some chunk's command has no matching occurrence anywhere in
the occurrence stack, the matcher exhausts the stack before all chunks
are assigned and the whole match fails (`none`, the embedding of the
uncaught `IndexError` that aborts the conversion): no chunk is silently
assigned an arbitrary location and no assignment list is produced. -/
theorem trace_match_stack_exhaustion_aborts (cs : List MatchChunk)
    (stack : List SrcOcc) (c : MatchChunk) (hc : c ∈ cs)
    (h : ∀ o ∈ stack, o.occ.command ≠ c.command) :
    match_chunks_equal_len cs stack = none := by
  induction cs generalizing stack with
  | nil => exact absurd hc (List.not_mem_nil c)
  | cons d ds ih =>
    unfold match_chunks_equal_len
    rcases List.mem_cons.mp hc with rfl | hc'
    · rw [popMatching_none_of_no_match c.command stack [] h]
    · rcases hp : popMatching d.command stack [] with - | ⟨o, rest⟩
      · rfl
      · dsimp only
        have hrest : ∀ o ∈ rest, o.occ.command ≠ c.command := by
          intro x hx
          rcases popMatching_rest_mem d.command stack [] o rest hp x hx with hx' | hx'
          · exact absurd hx' (List.not_mem_nil x)
          · exact h x hx'
        rw [ih rest hc' hrest]

/-- Witness for `trace_match_stack_exhaustion_aborts`: one discovered
`run` chunk but an already-empty occurrence stack — the match aborts
rather than producing any assignment. -/
theorem trace_match_stack_exhaustion_aborts_witness :
    match_chunks_equal_len [⟨some "run", true⟩] [] = none :=
  trace_match_stack_exhaustion_aborts [⟨some "run", true⟩] [] ⟨some "run", true⟩
    (List.mem_singleton.mpr rfl) (fun o ho => absurd ho (List.not_mem_nil o))
